import Mathlib

/-!
Verification of the Lunatik `cpustat` kernel module (`lib/luacpustat.c`),
together with the earlier hard-coded version of `luacpustat_get`.

Kernel state (the per-CPU `kernel_cpustat` vectors, `nr_cpu_ids`, and the
possible-CPU mask) is modelled as an explicit structure; `u64` reads and
additions are `Nat` operations reduced modulo `2 ^ 64`.  The Lua runtime
marshalling layer is out of scope (the design treats the embedding script
runtime and its value-marshalling as an external collaborator): the result
table is modelled as the association list of (field name, u64 value) pairs
in emission order, and the optional `cpu` argument as the C `int` value
obtained from `luaL_optinteger` (default `-1` when the argument is absent).
The `CONFIG_SCHED_CORE` build flag, which conditions the `FORCEIDLE` row of
the registry, is an explicit `Bool` parameter `sc`.
-/

namespace Cpustat

/-- Modulus of unsigned 64-bit (`u64`) arithmetic. -/
def U64 : Nat := 2 ^ 64

/-- Storage index of `CPUTIME_USER` in `enum cpu_usage_stat` (linux/kernel_stat.h). -/
def CPUTIME_USER : Nat := 0

def CPUTIME_NICE : Nat := 1

def CPUTIME_SYSTEM : Nat := 2

def CPUTIME_SOFTIRQ : Nat := 3

def CPUTIME_IRQ : Nat := 4

def CPUTIME_IDLE : Nat := 5

def CPUTIME_IOWAIT : Nat := 6

def CPUTIME_STEAL : Nat := 7

def CPUTIME_GUEST : Nat := 8

def CPUTIME_GUEST_NICE : Nat := 9

def CPUTIME_FORCEIDLE : Nat := 10

/-- The static registry `cpu_usage_stat[]` from `luacpustat.c`: (symbol, storage
index) rows, with the `FORCEIDLE` row present exactly when `CONFIG_SCHED_CORE`
(parameter `sc`) is enabled. -/
def cpu_usage_stat (sc : Bool) : List (String × Nat) :=
  [("USER", CPUTIME_USER), ("NICE", CPUTIME_NICE), ("SYSTEM", CPUTIME_SYSTEM),
   ("SOFTIRQ", CPUTIME_SOFTIRQ), ("IRQ", CPUTIME_IRQ), ("IDLE", CPUTIME_IDLE),
   ("IOWAIT", CPUTIME_IOWAIT), ("STEAL", CPUTIME_STEAL), ("GUEST", CPUTIME_GUEST),
   ("GUEST_NICE", CPUTIME_GUEST_NICE)] ++
  (if sc then [("FORCEIDLE", CPUTIME_FORCEIDLE)] else [])

/-- Kernel-side state read by the module: `nr_cpu_ids`, the list of possible
CPUs traversed by `for_each_possible_cpu`, and the per-CPU `kernel_cpustat`
vectors (`cpustat c j` is the `u64` counter of CPU `c` at storage index `j`;
reads reduce it modulo `2 ^ 64`). -/
structure KernelState where
  nr_cpu_ids : Nat
  possible : List Nat
  cpustat : Nat → Nat → Nat

/-- One step of the lowercase conversion loop in `luacpustat_get`:
`(*src >= 'A' && *src <= 'Z') ? (*src + 32) : *src`. -/
def lowerChar (c : Char) : Char :=
  if ('A' ≤ c ∧ c ≤ 'Z') then Char.ofNat (c.toNat + 32) else c

/-- The lowercase field name built in `field_name[32]`: at most 31 characters
of the registry symbol, each transliterated by `lowerChar`. -/
def fieldName (s : String) : String :=
  String.mk ((s.toList.take 31).map lowerChar)

/-- The `memset(stats, 0, sizeof(stats))` initialization of the `stats` array,
modelled as the all-zero function on storage indices. -/
def zeroStats : Nat → Nat := fun _ => 0

/-- The single-CPU branch of `luacpustat_get`: for each registry row, copy
`kcs.cpustat[cputime_idx]` into `stats[cputime_idx]`. -/
def copyStats (S : KernelState) (sc : Bool) (cpu : Nat) : Nat → Nat :=
  (cpu_usage_stat sc).foldl
    (fun stats e j => if j = e.2 then S.cpustat cpu e.2 % U64 else stats j)
    zeroStats

/-- One iteration of the aggregate loop body of `luacpustat_get`: for each
registry row, `stats[cputime_idx] += kcs.cpustat[cputime_idx]` with `u64`
wrap-around. -/
def accumCpu (S : KernelState) (sc : Bool) (stats : Nat → Nat) (i : Nat) : Nat → Nat :=
  (cpu_usage_stat sc).foldl
    (fun st e j => if j = e.2 then (st e.2 + S.cpustat i e.2 % U64) % U64 else st j)
    stats

/-- The aggregate branch of `luacpustat_get`: `for_each_possible_cpu`
accumulation into the zero-initialized `stats` array. -/
def aggStats (S : KernelState) (sc : Bool) : Nat → Nat :=
  S.possible.foldl (accumCpu S sc) zeroStats

/-- The result-table construction loop of `luacpustat_get`: one
`lua_setfield` per registry row, binding the lowercased symbol to
`stats[cpu_usage_stat[stat_idx].value]`. -/
def buildTable (sc : Bool) (stats : Nat → Nat) : List (String × Nat) :=
  (cpu_usage_stat sc).map (fun e => (fieldName e.1, stats e.2))

/-- The `luaL_error` message raised on an out-of-range CPU index:
`"invalid CPU number: %d (max: %d)"` with the index and `nr_cpu_ids - 1`. -/
def oobMsg (S : KernelState) (cpu : Int) : String :=
  "invalid CPU number: " ++ toString cpu ++ " (max: " ++
    toString ((S.nr_cpu_ids : Int) - 1) ++ ")"

/-- The registry-driven `luacpustat_get` of `lib/luacpustat.c`. -/
def luacpustat_get (S : KernelState) (sc : Bool) (arg : Option Int) :
    Except String (List (String × Nat)) :=
  let cpu : Int := arg.getD (-1)
  if 0 ≤ cpu then
    if (S.nr_cpu_ids : Int) ≤ cpu then
      Except.error (oobMsg S cpu)
    else
      Except.ok (buildTable sc (copyStats S sc cpu.toNat))
  else
    Except.ok (buildTable sc (aggStats S sc))

/-- `luacpustat_count`: pushes `nr_cpu_ids`. -/
def luacpustat_count (S : KernelState) : Nat := S.nr_cpu_ids

/-- The ten local `u64` variables of the earlier hard-coded
`luacpustat_get` (source file `unnamed/part_001`). -/
structure OldStats where
  user : Nat
  nice : Nat
  system : Nat
  idle : Nat
  iowait : Nat
  irq : Nat
  softirq : Nat
  steal : Nat
  guest : Nat
  guest_nice : Nat

/-- The single-CPU reads of the hard-coded implementation. -/
def oldRead (S : KernelState) (i : Nat) : OldStats :=
  ⟨S.cpustat i CPUTIME_USER % U64, S.cpustat i CPUTIME_NICE % U64,
   S.cpustat i CPUTIME_SYSTEM % U64, S.cpustat i CPUTIME_IDLE % U64,
   S.cpustat i CPUTIME_IOWAIT % U64, S.cpustat i CPUTIME_IRQ % U64,
   S.cpustat i CPUTIME_SOFTIRQ % U64, S.cpustat i CPUTIME_STEAL % U64,
   S.cpustat i CPUTIME_GUEST % U64, S.cpustat i CPUTIME_GUEST_NICE % U64⟩

/-- The zero initialization of the hard-coded aggregate branch. -/
def oldZero : OldStats := ⟨0, 0, 0, 0, 0, 0, 0, 0, 0, 0⟩

/-- One iteration of the hard-coded aggregate loop: ten `u64` additions. -/
def oldAccum (S : KernelState) (a : OldStats) (i : Nat) : OldStats :=
  ⟨(a.user + S.cpustat i CPUTIME_USER % U64) % U64,
   (a.nice + S.cpustat i CPUTIME_NICE % U64) % U64,
   (a.system + S.cpustat i CPUTIME_SYSTEM % U64) % U64,
   (a.idle + S.cpustat i CPUTIME_IDLE % U64) % U64,
   (a.iowait + S.cpustat i CPUTIME_IOWAIT % U64) % U64,
   (a.irq + S.cpustat i CPUTIME_IRQ % U64) % U64,
   (a.softirq + S.cpustat i CPUTIME_SOFTIRQ % U64) % U64,
   (a.steal + S.cpustat i CPUTIME_STEAL % U64) % U64,
   (a.guest + S.cpustat i CPUTIME_GUEST % U64) % U64,
   (a.guest_nice + S.cpustat i CPUTIME_GUEST_NICE % U64) % U64⟩

/-- The hard-coded sequence of `lua_setfield` calls of the old
implementation, one per field, in source order. -/
def oldTable (k : OldStats) : List (String × Nat) :=
  [("user", k.user), ("nice", k.nice), ("system", k.system), ("idle", k.idle),
   ("iowait", k.iowait), ("irq", k.irq), ("softirq", k.softirq),
   ("steal", k.steal), ("guest", k.guest), ("guest_nice", k.guest_nice)]

/-- The earlier hard-coded `luacpustat_get` (source file `unnamed/part_001`). -/
def luacpustat_get_old (S : KernelState) (arg : Option Int) :
    Except String (List (String × Nat)) :=
  let cpu : Int := arg.getD (-1)
  if 0 ≤ cpu then
    if (S.nr_cpu_ids : Int) ≤ cpu then
      Except.error (oobMsg S cpu)
    else
      Except.ok (oldTable (oldRead S cpu.toNat))
  else
    Except.ok (oldTable (S.possible.foldl (oldAccum S) oldZero))

/-- A concrete two-CPU state used to instantiate theorems. -/
def S0 : KernelState := ⟨2, [0, 1], fun c j => c * 1000 + j⟩

/-- A concrete four-CPU state for the 4-processor scenario. -/
def S4 : KernelState := ⟨4, [0, 1, 2, 3], fun c j => (c + 1) * (j + 2)⟩

/-- Modelled from the spec: the registry contract NameOf(kind), the
uppercase-to-lowercase transliteration of the whole symbolic spelling
(no length truncation). -/
def specName (s : String) : String := String.mk (s.toList.map lowerChar)


lemma U64_pos : 0 < U64 := by decide

lemma get_some_eq (S : KernelState) (sc : Bool) (i : Int) :
    luacpustat_get S sc (some i) =
      if 0 ≤ i then
        (if (S.nr_cpu_ids : Int) ≤ i then Except.error (oobMsg S i)
         else Except.ok (buildTable sc (copyStats S sc i.toNat)))
      else Except.ok (buildTable sc (aggStats S sc)) := rfl

lemma get_none_eq (S : KernelState) (sc : Bool) :
    luacpustat_get S sc none = Except.ok (buildTable sc (aggStats S sc)) := rfl

lemma get_pos (S : KernelState) (sc : Bool) (i : Int) (h0 : 0 ≤ i)
    (hlt : i < (S.nr_cpu_ids : Int)) :
    luacpustat_get S sc (some i) =
      Except.ok (buildTable sc (copyStats S sc i.toNat)) := by
  rw [get_some_eq, if_pos h0, if_neg (not_le.mpr hlt)]

lemma get_oob (S : KernelState) (sc : Bool) (i : Int) (h0 : 0 ≤ i)
    (hge : (S.nr_cpu_ids : Int) ≤ i) :
    luacpustat_get S sc (some i) = Except.error (oobMsg S i) := by
  rw [get_some_eq, if_pos h0, if_pos hge]

lemma get_neg (S : KernelState) (sc : Bool) (i : Int) (hneg : i < 0) :
    luacpustat_get S sc (some i) = Except.ok (buildTable sc (aggStats S sc)) := by
  rw [get_some_eq, if_neg (not_le.mpr hneg)]

lemma mem_registry (sc : Bool) (e : String × Nat) (he : e ∈ cpu_usage_stat sc) :
    e = ("USER", 0) ∨ e = ("NICE", 1) ∨ e = ("SYSTEM", 2) ∨ e = ("SOFTIRQ", 3) ∨
    e = ("IRQ", 4) ∨ e = ("IDLE", 5) ∨ e = ("IOWAIT", 6) ∨ e = ("STEAL", 7) ∨
    e = ("GUEST", 8) ∨ e = ("GUEST_NICE", 9) ∨ (sc = true ∧ e = ("FORCEIDLE", 10)) := by
  cases sc <;> simp [cpu_usage_stat, CPUTIME_USER, CPUTIME_NICE, CPUTIME_SYSTEM,
    CPUTIME_SOFTIRQ, CPUTIME_IRQ, CPUTIME_IDLE, CPUTIME_IOWAIT, CPUTIME_STEAL,
    CPUTIME_GUEST, CPUTIME_GUEST_NICE, CPUTIME_FORCEIDLE] at he <;> tauto

lemma copyStats_entry (S : KernelState) (sc : Bool) (cpu : Nat) (e : String × Nat)
    (he : e ∈ cpu_usage_stat sc) :
    copyStats S sc cpu e.2 = S.cpustat cpu e.2 % U64 := by
  rcases mem_registry sc e he with rfl|rfl|rfl|rfl|rfl|rfl|rfl|rfl|rfl|rfl|⟨hsc, rfl⟩ <;>
    first
      | (cases sc <;> rfl)
      | (subst hsc; rfl)

lemma accumCpu_entry (S : KernelState) (sc : Bool) (st : Nat → Nat) (i : Nat)
    (e : String × Nat) (he : e ∈ cpu_usage_stat sc) :
    accumCpu S sc st i e.2 = (st e.2 + S.cpustat i e.2 % U64) % U64 := by
  rcases mem_registry sc e he with rfl|rfl|rfl|rfl|rfl|rfl|rfl|rfl|rfl|rfl|⟨hsc, rfl⟩ <;>
    first
      | (cases sc <;> rfl)
      | (subst hsc; rfl)

lemma lookup_buildTable (sc : Bool) (stats : Nat → Nat) (e : String × Nat)
    (he : e ∈ cpu_usage_stat sc) :
    List.lookup (fieldName e.1) (buildTable sc stats) = some (stats e.2) := by
  rcases mem_registry sc e he with rfl|rfl|rfl|rfl|rfl|rfl|rfl|rfl|rfl|rfl|⟨hsc, rfl⟩ <;>
    first
      | (cases sc <;> rfl)
      | (subst hsc; rfl)


lemma agg_foldl_entry (S : KernelState) (sc : Bool) (e : String × Nat)
    (he : e ∈ cpu_usage_stat sc) :
    ∀ (l : List Nat) (st : Nat → Nat),
      (l.foldl (accumCpu S sc) st) e.2
        = l.foldl (fun a c => (a + S.cpustat c e.2 % U64) % U64) (st e.2) := by
  intro l
  induction l with
  | nil => intro st; rfl
  | cons c tl ih =>
      intro st
      rw [List.foldl_cons, List.foldl_cons, ih, accumCpu_entry S sc st c e he]

lemma foldl_mod_add (f : Nat → Nat) :
    ∀ (l : List Nat) (a : Nat),
      l.foldl (fun b c => (b + f c % U64) % U64) (a % U64)
        = (a + (l.map f).sum) % U64 := by
  intro l
  induction l with
  | nil => intro a; simp
  | cons c tl ih =>
      intro a
      rw [List.foldl_cons, List.map_cons, List.sum_cons]
      rw [show ((a % U64 + f c % U64) % U64) = ((a + f c) % U64) from (Nat.add_mod a (f c) U64).symm]
      rw [ih (a + f c), Nat.add_assoc]

lemma aggStats_entry (S : KernelState) (sc : Bool) (e : String × Nat)
    (he : e ∈ cpu_usage_stat sc) :
    aggStats S sc e.2 = (S.possible.map (fun c => S.cpustat c e.2)).sum % U64 := by
  have h1 := agg_foldl_entry S sc e he S.possible zeroStats
  have h2 : S.possible.foldl (fun b c => (b + S.cpustat c e.2 % U64) % U64) (0 % U64)
      = (0 + (S.possible.map (fun c => S.cpustat c e.2)).sum) % U64 :=
    foldl_mod_add (fun c => S.cpustat c e.2) S.possible 0
  show (S.possible.foldl (accumCpu S sc) zeroStats) e.2 = _
  rw [h1, show zeroStats e.2 = (0 % U64) from rfl, h2, Nat.zero_add]

lemma copyStats_lt (S : KernelState) (sc : Bool) (cpu : Nat) (j : Nat) :
    copyStats S sc cpu j < U64 := by
  have key : ∀ (l : List (String × Nat)) (st : Nat → Nat), (∀ k, st k < U64) →
      ∀ k, (l.foldl
        (fun stats e j => if j = e.2 then S.cpustat cpu e.2 % U64 else stats j) st) k < U64 := by
    intro l
    induction l with
    | nil => intro st h k; exact h k
    | cons e tl ih =>
        intro st h k
        rw [List.foldl_cons]
        refine ih _ (fun k2 => ?_) k
        dsimp only
        split
        · exact Nat.mod_lt _ U64_pos
        · exact h k2
  exact key (cpu_usage_stat sc) zeroStats (fun _ => U64_pos) j

lemma accumCpu_lt (S : KernelState) (sc : Bool) (i : Nat) (st : Nat → Nat)
    (h : ∀ k, st k < U64) : ∀ k, accumCpu S sc st i k < U64 := by
  have key : ∀ (l : List (String × Nat)) (st : Nat → Nat), (∀ k, st k < U64) →
      ∀ k, (l.foldl
        (fun st e j => if j = e.2 then (st e.2 + S.cpustat i e.2 % U64) % U64 else st j) st) k < U64 := by
    intro l
    induction l with
    | nil => intro st h k; exact h k
    | cons e tl ih =>
        intro st h k
        rw [List.foldl_cons]
        refine ih _ (fun k2 => ?_) k
        dsimp only
        split
        · exact Nat.mod_lt _ U64_pos
        · exact h k2
  intro k
  exact key (cpu_usage_stat sc) st h k

lemma aggStats_lt (S : KernelState) (sc : Bool) (j : Nat) : aggStats S sc j < U64 := by
  have key : ∀ (l : List Nat) (st : Nat → Nat), (∀ k, st k < U64) →
      ∀ k, (l.foldl (accumCpu S sc) st) k < U64 := by
    intro l
    induction l with
    | nil => intro st h k; exact h k
    | cons c tl ih =>
        intro st h k
        rw [List.foldl_cons]
        exact ih _ (accumCpu_lt S sc c st h) k
  exact key S.possible zeroStats (fun _ => U64_pos) j

lemma get_ok_shape (S : KernelState) (sc : Bool) (arg : Option Int)
    (t : List (String × Nat)) (h : luacpustat_get S sc arg = Except.ok t) :
    ∃ stats : Nat → Nat, (∀ j, stats j < U64) ∧ t = buildTable sc stats := by
  cases arg with
  | none =>
      rw [get_none_eq] at h
      exact ⟨aggStats S sc, fun j => aggStats_lt S sc j, (Except.ok.inj h).symm⟩
  | some i =>
      rw [get_some_eq] at h
      by_cases h0 : 0 ≤ i
      · rw [if_pos h0] at h
        by_cases hge : (S.nr_cpu_ids : Int) ≤ i
        · rw [if_pos hge] at h
          exact Except.noConfusion h
        · rw [if_neg hge] at h
          exact ⟨copyStats S sc i.toNat, fun j => copyStats_lt S sc i.toNat j,
            (Except.ok.inj h).symm⟩
      · rw [if_neg h0] at h
        exact ⟨aggStats S sc, fun j => aggStats_lt S sc j, (Except.ok.inj h).symm⟩



lemma get_ok_iff (S : KernelState) (sc : Bool) (i : Int) (hi : 0 ≤ i) :
    (∃ t, luacpustat_get S sc (some i) = Except.ok t) ↔ i < (S.nr_cpu_ids : Int) := by
  constructor
  · rintro ⟨t, ht⟩
    by_contra hcon
    push_neg at hcon
    rw [get_oob S sc i hi hcon] at ht
    exact Except.noConfusion ht
  · intro hlt
    exact ⟨_, get_pos S sc i hi hlt⟩

lemma get_old_none_eq (S : KernelState) :
    luacpustat_get_old S none
      = Except.ok (oldTable (S.possible.foldl (oldAccum S) oldZero)) := rfl

lemma get_old_some_eq (S : KernelState) (i : Int) :
    luacpustat_get_old S (some i) =
      if 0 ≤ i then
        (if (S.nr_cpu_ids : Int) ≤ i then Except.error (oobMsg S i)
         else Except.ok (oldTable (oldRead S i.toNat)))
      else Except.ok (oldTable (S.possible.foldl (oldAccum S) oldZero)) := rfl

lemma get_old_pos (S : KernelState) (i : Int) (h0 : 0 ≤ i)
    (hlt : i < (S.nr_cpu_ids : Int)) :
    luacpustat_get_old S (some i) = Except.ok (oldTable (oldRead S i.toNat)) := by
  rw [get_old_some_eq, if_pos h0, if_neg (not_le.mpr hlt)]

lemma get_old_oob (S : KernelState) (i : Int) (h0 : 0 ≤ i)
    (hge : (S.nr_cpu_ids : Int) ≤ i) :
    luacpustat_get_old S (some i) = Except.error (oobMsg S i) := by
  rw [get_old_some_eq, if_pos h0, if_pos hge]

lemma get_old_neg (S : KernelState) (i : Int) (hneg : i < 0) :
    luacpustat_get_old S (some i)
      = Except.ok (oldTable (S.possible.foldl (oldAccum S) oldZero)) := by
  rw [get_old_some_eq, if_neg (not_le.mpr hneg)]

lemma old_new_single (S : KernelState) (c : Nat) (name : String) :
    List.lookup name (oldTable (oldRead S c))
      = List.lookup name (buildTable false (copyStats S false c)) := by
  by_cases h1 : name = "user"
  · subst h1; rfl
  by_cases h2 : name = "nice"
  · subst h2; rfl
  by_cases h3 : name = "system"
  · subst h3; rfl
  by_cases h4 : name = "idle"
  · subst h4; rfl
  by_cases h5 : name = "iowait"
  · subst h5; rfl
  by_cases h6 : name = "irq"
  · subst h6; rfl
  by_cases h7 : name = "softirq"
  · subst h7; rfl
  by_cases h8 : name = "steal"
  · subst h8; rfl
  by_cases h9 : name = "guest"
  · subst h9; rfl
  by_cases h10 : name = "guest_nice"
  · subst h10; rfl
  have b1 : (name == "user") = false := beq_eq_false_iff_ne.mpr h1
  have b2 : (name == "nice") = false := beq_eq_false_iff_ne.mpr h2
  have b3 : (name == "system") = false := beq_eq_false_iff_ne.mpr h3
  have b4 : (name == "idle") = false := beq_eq_false_iff_ne.mpr h4
  have b5 : (name == "iowait") = false := beq_eq_false_iff_ne.mpr h5
  have b6 : (name == "irq") = false := beq_eq_false_iff_ne.mpr h6
  have b7 : (name == "softirq") = false := beq_eq_false_iff_ne.mpr h7
  have b8 : (name == "steal") = false := beq_eq_false_iff_ne.mpr h8
  have b9 : (name == "guest") = false := beq_eq_false_iff_ne.mpr h9
  have b10 : (name == "guest_nice") = false := beq_eq_false_iff_ne.mpr h10
  rw [show buildTable false (copyStats S false c)
      = [("user", copyStats S false c 0), ("nice", copyStats S false c 1),
         ("system", copyStats S false c 2), ("softirq", copyStats S false c 3),
         ("irq", copyStats S false c 4), ("idle", copyStats S false c 5),
         ("iowait", copyStats S false c 6), ("steal", copyStats S false c 7),
         ("guest", copyStats S false c 8), ("guest_nice", copyStats S false c 9)] from rfl]
  simp [oldTable, List.lookup, b1, b2, b3, b4, b5, b6, b7, b8, b9, b10]

lemma old_new_fold (S : KernelState) :
    ∀ (l : List Nat) (a : OldStats) (st : Nat → Nat),
      a.user = st 0 → a.nice = st 1 → a.system = st 2 → a.idle = st 5 →
      a.iowait = st 6 → a.irq = st 4 → a.softirq = st 3 → a.steal = st 7 →
      a.guest = st 8 → a.guest_nice = st 9 →
      ((l.foldl (oldAccum S) a).user = (l.foldl (accumCpu S false) st) 0 ∧
       (l.foldl (oldAccum S) a).nice = (l.foldl (accumCpu S false) st) 1 ∧
       (l.foldl (oldAccum S) a).system = (l.foldl (accumCpu S false) st) 2 ∧
       (l.foldl (oldAccum S) a).idle = (l.foldl (accumCpu S false) st) 5 ∧
       (l.foldl (oldAccum S) a).iowait = (l.foldl (accumCpu S false) st) 6 ∧
       (l.foldl (oldAccum S) a).irq = (l.foldl (accumCpu S false) st) 4 ∧
       (l.foldl (oldAccum S) a).softirq = (l.foldl (accumCpu S false) st) 3 ∧
       (l.foldl (oldAccum S) a).steal = (l.foldl (accumCpu S false) st) 7 ∧
       (l.foldl (oldAccum S) a).guest = (l.foldl (accumCpu S false) st) 8 ∧
       (l.foldl (oldAccum S) a).guest_nice = (l.foldl (accumCpu S false) st) 9) := by
  intro l
  induction l with
  | nil =>
      intro a st h1 h2 h3 h4 h5 h6 h7 h8 h9 h10
      exact ⟨h1, h2, h3, h4, h5, h6, h7, h8, h9, h10⟩
  | cons c tl ih =>
      intro a st h1 h2 h3 h4 h5 h6 h7 h8 h9 h10
      rw [List.foldl_cons, List.foldl_cons]
      refine ih (oldAccum S a c) (accumCpu S false st c) ?_ ?_ ?_ ?_ ?_ ?_ ?_ ?_ ?_ ?_
      · exact congrArg (fun z => (z + S.cpustat c 0 % U64) % U64) h1
      · exact congrArg (fun z => (z + S.cpustat c 1 % U64) % U64) h2
      · exact congrArg (fun z => (z + S.cpustat c 2 % U64) % U64) h3
      · exact congrArg (fun z => (z + S.cpustat c 5 % U64) % U64) h4
      · exact congrArg (fun z => (z + S.cpustat c 6 % U64) % U64) h5
      · exact congrArg (fun z => (z + S.cpustat c 4 % U64) % U64) h6
      · exact congrArg (fun z => (z + S.cpustat c 3 % U64) % U64) h7
      · exact congrArg (fun z => (z + S.cpustat c 7 % U64) % U64) h8
      · exact congrArg (fun z => (z + S.cpustat c 8 % U64) % U64) h9
      · exact congrArg (fun z => (z + S.cpustat c 9 % U64) % U64) h10

lemma old_new_agg (S : KernelState) (name : String) :
    List.lookup name (oldTable (S.possible.foldl (oldAccum S) oldZero))
      = List.lookup name (buildTable false (aggStats S false)) := by
  obtain ⟨e1, e2, e3, e4, e5, e6, e7, e8, e9, e10⟩ :=
    old_new_fold S S.possible oldZero zeroStats rfl rfl rfl rfl rfl rfl rfl rfl rfl rfl
  by_cases h1 : name = "user"
  · subst h1; exact congrArg some e1
  by_cases h2 : name = "nice"
  · subst h2; exact congrArg some e2
  by_cases h3 : name = "system"
  · subst h3; exact congrArg some e3
  by_cases h4 : name = "idle"
  · subst h4; exact congrArg some e4
  by_cases h5 : name = "iowait"
  · subst h5; exact congrArg some e5
  by_cases h6 : name = "irq"
  · subst h6; exact congrArg some e6
  by_cases h7 : name = "softirq"
  · subst h7; exact congrArg some e7
  by_cases h8 : name = "steal"
  · subst h8; exact congrArg some e8
  by_cases h9 : name = "guest"
  · subst h9; exact congrArg some e9
  by_cases h10 : name = "guest_nice"
  · subst h10; exact congrArg some e10
  have b1 : (name == "user") = false := beq_eq_false_iff_ne.mpr h1
  have b2 : (name == "nice") = false := beq_eq_false_iff_ne.mpr h2
  have b3 : (name == "system") = false := beq_eq_false_iff_ne.mpr h3
  have b4 : (name == "idle") = false := beq_eq_false_iff_ne.mpr h4
  have b5 : (name == "iowait") = false := beq_eq_false_iff_ne.mpr h5
  have b6 : (name == "irq") = false := beq_eq_false_iff_ne.mpr h6
  have b7 : (name == "softirq") = false := beq_eq_false_iff_ne.mpr h7
  have b8 : (name == "steal") = false := beq_eq_false_iff_ne.mpr h8
  have b9 : (name == "guest") = false := beq_eq_false_iff_ne.mpr h9
  have b10 : (name == "guest_nice") = false := beq_eq_false_iff_ne.mpr h10
  rw [show buildTable false (aggStats S false)
      = [("user", aggStats S false 0), ("nice", aggStats S false 1),
         ("system", aggStats S false 2), ("softirq", aggStats S false 3),
         ("irq", aggStats S false 4), ("idle", aggStats S false 5),
         ("iowait", aggStats S false 6), ("steal", aggStats S false 7),
         ("guest", aggStats S false 8), ("guest_nice", aggStats S false 9)] from rfl]
  simp [oldTable, List.lookup, b1, b2, b3, b4, b5, b6, b7, b8, b9, b10]


/-- C1: for every in-range processor index, `luacpustat_get` succeeds and
returns a mapping in which, for each (kind, name, index) row of the counter
registry, the value bound to the lowercased name is that processor's counter
vector element at the row's storage index (a single per-CPU read). -/
theorem c1_single_cpu_snapshot (S : KernelState) (sc : Bool) (i : Int)
    (h0 : 0 ≤ i) (hlt : i < (S.nr_cpu_ids : Int)) :
    ∃ t, luacpustat_get S sc (some i) = Except.ok t ∧
      ∀ e ∈ cpu_usage_stat sc,
        List.lookup (fieldName e.1) t = some (S.cpustat i.toNat e.2 % U64) := by
  refine ⟨_, get_pos S sc i h0 hlt, ?_⟩
  intro e he
  rw [lookup_buildTable sc _ e he, copyStats_entry S sc _ e he]

/-- C1 witness: the theorem instantiated at the concrete two-CPU state `S0`,
processor 1, with the optional registry row present. -/
theorem c1_single_cpu_snapshot_witness :
    ∃ t, luacpustat_get S0 true (some 1) = Except.ok t ∧
      ∀ e ∈ cpu_usage_stat true,
        List.lookup (fieldName e.1) t = some (S0.cpustat (1 : Int).toNat e.2 % U64) :=
  c1_single_cpu_snapshot S0 true 1 (by decide) (by decide)

/-- C2: a call with no argument or with any negative argument returns the
aggregate snapshot: each registry name is bound to the element-wise unsigned
64-bit sum of that counter over every possible processor slot (the whole
`possible` list, no slot skipped). -/
theorem c2_aggregate_snapshot (S : KernelState) (sc : Bool) (arg : Option Int)
    (h : arg = none ∨ ∃ z : Int, z < 0 ∧ arg = some z) :
    ∃ t, luacpustat_get S sc arg = Except.ok t ∧
      ∀ e ∈ cpu_usage_stat sc,
        List.lookup (fieldName e.1) t
          = some ((S.possible.map (fun c => S.cpustat c e.2)).sum % U64) := by
  have hagg : luacpustat_get S sc arg = Except.ok (buildTable sc (aggStats S sc)) := by
    rcases h with rfl | ⟨z, hz, rfl⟩
    · exact get_none_eq S sc
    · exact get_neg S sc z hz
  refine ⟨_, hagg, ?_⟩
  intro e he
  rw [lookup_buildTable sc _ e he, aggStats_entry S sc e he]

/-- C2 witness: the theorem instantiated at `S0` with argument `-5`. -/
theorem c2_aggregate_snapshot_witness :
    ∃ t, luacpustat_get S0 false (some (-5)) = Except.ok t ∧
      ∀ e ∈ cpu_usage_stat false,
        List.lookup (fieldName e.1) t
          = some ((S0.possible.map (fun c => S0.cpustat c e.2)).sum % U64) :=
  c2_aggregate_snapshot S0 false (some (-5)) (Or.inr ⟨-5, by decide, rfl⟩)

/-- C3: a call with a non-negative index fails if and only if the index is at
least `luacpustat_count`; the failure is the out-of-range error naming the
offending index and the valid bound (`max: count - 1`), with no partial
result; index `count - 1` succeeds and `count + N` fails for every `N ≥ 0`. -/
theorem c3_bounds_check (S : KernelState) (sc : Bool) (i N : Int)
    (hpos : 0 < S.nr_cpu_ids) (hi : 0 ≤ i) (hN : 0 ≤ N) :
    ((∃ t, luacpustat_get S sc (some i) = Except.ok t) ↔
      i < (luacpustat_count S : Int)) ∧
    ((luacpustat_count S : Int) ≤ i →
      luacpustat_get S sc (some i) = Except.error (oobMsg S i)) ∧
    oobMsg S i = "invalid CPU number: " ++ toString i ++ " (max: " ++
      toString ((luacpustat_count S : Int) - 1) ++ ")" ∧
    (∃ t, luacpustat_get S sc (some ((luacpustat_count S : Int) - 1))
      = Except.ok t) ∧
    luacpustat_get S sc (some ((luacpustat_count S : Int) + N))
      = Except.error (oobMsg S ((luacpustat_count S : Int) + N)) := by
  simp only [luacpustat_count]
  have hone : (1 : Int) ≤ (S.nr_cpu_ids : Int) := by exact_mod_cast hpos
  refine ⟨get_ok_iff S sc i hi, fun hge => get_oob S sc i hi hge, rfl, ?_, ?_⟩
  · exact ⟨_, get_pos S sc _ (by omega) (by omega)⟩
  · exact get_oob S sc _ (by omega) (by omega)

/-- C3 witness: the theorem instantiated at `S0` (two CPUs), index 7, offset 5. -/
theorem c3_bounds_check_witness :
    ((∃ t, luacpustat_get S0 false (some 7) = Except.ok t) ↔
      (7 : Int) < (luacpustat_count S0 : Int)) ∧
    ((luacpustat_count S0 : Int) ≤ 7 →
      luacpustat_get S0 false (some 7) = Except.error (oobMsg S0 7)) ∧
    oobMsg S0 7 = "invalid CPU number: " ++ toString (7 : Int) ++ " (max: " ++
      toString ((luacpustat_count S0 : Int) - 1) ++ ")" ∧
    (∃ t, luacpustat_get S0 false (some ((luacpustat_count S0 : Int) - 1))
      = Except.ok t) ∧
    luacpustat_get S0 false (some ((luacpustat_count S0 : Int) + 5))
      = Except.error (oobMsg S0 ((luacpustat_count S0 : Int) + 5)) :=
  c3_bounds_check S0 false 7 5 (by decide) (by decide) (by decide)


/-- C4: every successful call returns a table whose key list is exactly the
lowercased registry name list, with exactly one entry per registry row and no
duplicate, missing, or extra fields. -/
theorem c4_key_completeness (S : KernelState) (sc : Bool) (arg : Option Int)
    (t : List (String × Nat)) (h : luacpustat_get S sc arg = Except.ok t) :
    t.map Prod.fst = (cpu_usage_stat sc).map (fun e => fieldName e.1) ∧
    t.length = (cpu_usage_stat sc).length ∧ (t.map Prod.fst).Nodup := by
  obtain ⟨stats, -, rfl⟩ := get_ok_shape S sc arg t h
  refine ⟨by cases sc <;> rfl, by cases sc <;> rfl, ?_⟩
  cases sc
  · rw [show (buildTable false stats).map Prod.fst
        = ["user", "nice", "system", "softirq", "irq", "idle", "iowait",
           "steal", "guest", "guest_nice"] from rfl]
    decide
  · rw [show (buildTable true stats).map Prod.fst
        = ["user", "nice", "system", "softirq", "irq", "idle", "iowait",
           "steal", "guest", "guest_nice", "forceidle"] from rfl]
    decide

/-- C4 witness: the theorem instantiated at `S0`, processor 0, without the
optional registry row; the returned table is written out explicitly. -/
theorem c4_key_completeness_witness :
    ([("user", 0), ("nice", 1), ("system", 2), ("softirq", 3), ("irq", 4),
      ("idle", 5), ("iowait", 6), ("steal", 7), ("guest", 8),
      ("guest_nice", 9)] : List (String × Nat)).map Prod.fst
        = (cpu_usage_stat false).map (fun e => fieldName e.1) ∧
    ([("user", 0), ("nice", 1), ("system", 2), ("softirq", 3), ("irq", 4),
      ("idle", 5), ("iowait", 6), ("steal", 7), ("guest", 8),
      ("guest_nice", 9)] : List (String × Nat)).length
        = (cpu_usage_stat false).length ∧
    (([("user", 0), ("nice", 1), ("system", 2), ("softirq", 3), ("irq", 4),
      ("idle", 5), ("iowait", 6), ("steal", 7), ("guest", 8),
      ("guest_nice", 9)] : List (String × Nat)).map Prod.fst).Nodup :=
  c4_key_completeness S0 false (some 0) _ rfl

/-- C5: on the concrete four-CPU state `S4`, `luacpustat_count` returns 4,
`get` succeeds on processors 0, 1, 2 and 3, and `get 4` fails with the
out-of-range error naming the offending index 4 and the valid bound
(maximal index 3, i.e. exclusive bound 4). -/
theorem c5_four_cpu_scenario :
    luacpustat_count S4 = 4 ∧
    (∃ t, luacpustat_get S4 false (some 0) = Except.ok t) ∧
    (∃ t, luacpustat_get S4 false (some 1) = Except.ok t) ∧
    (∃ t, luacpustat_get S4 false (some 2) = Except.ok t) ∧
    (∃ t, luacpustat_get S4 false (some 3) = Except.ok t) ∧
    luacpustat_get S4 false (some 4)
      = Except.error "invalid CPU number: 4 (max: 3)" :=
  ⟨rfl, ⟨_, rfl⟩, ⟨_, rfl⟩, ⟨_, rfl⟩, ⟨_, rfl⟩, rfl⟩

/-- C6: every emitted field name is the uppercase-to-lowercase transliteration
of its registry symbol, and the emitted name set is exactly the ten fixed
lowercase names plus `forceidle` exactly when core-scheduling accounting is
enabled. -/
theorem c6_field_names (S : KernelState) (sc : Bool) (arg : Option Int)
    (t : List (String × Nat)) (h : luacpustat_get S sc arg = Except.ok t) :
    (∀ e ∈ cpu_usage_stat sc, fieldName e.1 = specName e.1) ∧
    (∀ name : String, name ∈ t.map Prod.fst ↔
      (name ∈ (["user", "nice", "system", "idle", "iowait", "irq", "softirq",
                "steal", "guest", "guest_nice"] : List String) ∨
        (sc = true ∧ name = "forceidle"))) := by
  obtain ⟨stats, -, rfl⟩ := get_ok_shape S sc arg t h
  constructor
  · intro e he
    rcases mem_registry sc e he with
      rfl | rfl | rfl | rfl | rfl | rfl | rfl | rfl | rfl | rfl | ⟨hsc, rfl⟩ <;> rfl
  · intro name
    cases sc
    · rw [show (buildTable false stats).map Prod.fst
          = ["user", "nice", "system", "softirq", "irq", "idle", "iowait",
             "steal", "guest", "guest_nice"] from rfl]
      simp only [List.mem_cons, List.not_mem_nil, or_false, Bool.false_eq_true,
        false_and]
      tauto
    · rw [show (buildTable true stats).map Prod.fst
          = ["user", "nice", "system", "softirq", "irq", "idle", "iowait",
             "steal", "guest", "guest_nice", "forceidle"] from rfl]
      simp only [List.mem_cons, List.not_mem_nil, or_false, true_and]
      tauto

/-- C6 witness: the theorem instantiated at `S0` with no argument and the
optional registry row present. -/
theorem c6_field_names_witness :
    (∀ e ∈ cpu_usage_stat true, fieldName e.1 = specName e.1) ∧
    (∀ name : String,
      name ∈ (buildTable true (aggStats S0 true)).map Prod.fst ↔
      (name ∈ (["user", "nice", "system", "idle", "iowait", "irq", "softirq",
                "steal", "guest", "guest_nice"] : List String) ∨
        (true = true ∧ name = "forceidle"))) :=
  c6_field_names S0 true none _ rfl

/-- C7: `luacpustat_count` takes no input beyond the kernel state, always
returns `nr_cpu_ids` (it has no failure path), this value is positive
whenever the system has at least one possible processor slot, and it is
exactly the bound of the range check of `luacpustat_get`. -/
theorem c7_count (S : KernelState) (sc : Bool) (i : Int)
    (hreal : 0 < S.nr_cpu_ids) (hi : 0 ≤ i) :
    luacpustat_count S = S.nr_cpu_ids ∧ 0 < luacpustat_count S ∧
    ((∃ t, luacpustat_get S sc (some i) = Except.ok t) ↔
      i < (luacpustat_count S : Int)) :=
  ⟨rfl, hreal, get_ok_iff S sc i hi⟩

/-- C7 witness: the theorem instantiated at `S0` and index 1. -/
theorem c7_count_witness :
    luacpustat_count S0 = S0.nr_cpu_ids ∧ 0 < luacpustat_count S0 ∧
    ((∃ t, luacpustat_get S0 false (some 1) = Except.ok t) ↔
      (1 : Int) < (luacpustat_count S0 : Int)) :=
  c7_count S0 false 1 (by decide) (by decide)


/-- C8: every value in a returned table is a non-negative integer below
`2 ^ 64` (unsigned 64-bit), and in the aggregate case each registry field
holds the cross-processor sum reduced modulo `2 ^ 64` — wrap-around, not an
overflow guard. -/
theorem c8_u64_semantics (S : KernelState) (sc : Bool) (arg : Option Int)
    (t : List (String × Nat)) (h : luacpustat_get S sc arg = Except.ok t) :
    (∀ p ∈ t, 0 ≤ p.2 ∧ p.2 < U64) ∧
    (arg.getD (-1) < 0 →
      ∀ e ∈ cpu_usage_stat sc,
        List.lookup (fieldName e.1) t
          = some ((S.possible.map (fun c => S.cpustat c e.2)).sum % U64)) := by
  obtain ⟨stats, hlt, rfl⟩ := get_ok_shape S sc arg t h
  constructor
  · intro p hp
    obtain ⟨e, he, rfl⟩ := List.mem_map.mp hp
    exact ⟨Nat.zero_le _, hlt e.2⟩
  · intro hneg e he
    have hagg : luacpustat_get S sc arg = Except.ok (buildTable sc (aggStats S sc)) := by
      cases arg with
      | none => exact get_none_eq S sc
      | some z => exact get_neg S sc z (by simpa using hneg)
    have hbt : buildTable sc stats = buildTable sc (aggStats S sc) :=
      Except.ok.inj (h.symm.trans hagg)
    rw [hbt, lookup_buildTable sc _ e he, aggStats_entry S sc e he]

/-- C8 witness: the theorem instantiated at `S0` with no argument. -/
theorem c8_u64_semantics_witness :
    (∀ p ∈ buildTable false (aggStats S0 false), 0 ≤ p.2 ∧ p.2 < U64) ∧
    ((none : Option Int).getD (-1) < 0 →
      ∀ e ∈ cpu_usage_stat false,
        List.lookup (fieldName e.1) (buildTable false (aggStats S0 false))
          = some ((S0.possible.map (fun c => S0.cpustat c e.2)).sum % U64)) :=
  c8_u64_semantics S0 false none _ rfl

/-- C9: `luacpustat_get` succeeds on a missing argument, on every negative
index, and on every index within the valid range, and its only failure mode
is the out-of-range error for some non-negative index at least
`luacpustat_count`; `luacpustat_count` is a total function with no failure
path. -/
theorem c9_only_failure_is_oob (S : KernelState) (sc : Bool) (i j : Int)
    (hneg : i < 0) (hj0 : 0 ≤ j) (hjlt : j < (S.nr_cpu_ids : Int)) :
    (∃ t, luacpustat_get S sc none = Except.ok t) ∧
    (∃ t, luacpustat_get S sc (some i) = Except.ok t) ∧
    (∃ t, luacpustat_get S sc (some j) = Except.ok t) ∧
    (∀ (arg : Option Int) (e : String),
      luacpustat_get S sc arg = Except.error e →
        ∃ k : Int, arg = some k ∧ 0 ≤ k ∧ (luacpustat_count S : Int) ≤ k ∧
          e = oobMsg S k) := by
  refine ⟨⟨_, get_none_eq S sc⟩, ⟨_, get_neg S sc i hneg⟩,
    ⟨_, get_pos S sc j hj0 hjlt⟩, ?_⟩
  intro arg e h
  cases arg with
  | none =>
      rw [get_none_eq] at h
      exact Except.noConfusion h
  | some k =>
      by_cases h0 : 0 ≤ k
      · by_cases hge : (S.nr_cpu_ids : Int) ≤ k
        · rw [get_oob S sc k h0 hge] at h
          exact ⟨k, rfl, h0, hge, (Except.error.inj h).symm⟩
        · rw [get_pos S sc k h0 (not_le.mp hge)] at h
          exact Except.noConfusion h
      · rw [get_neg S sc k (not_le.mp h0)] at h
        exact Except.noConfusion h

/-- C9 witness: the theorem instantiated at `S0`, negative index -1 and valid
index 1. -/
theorem c9_only_failure_is_oob_witness :
    (∃ t, luacpustat_get S0 false none = Except.ok t) ∧
    (∃ t, luacpustat_get S0 false (some (-1)) = Except.ok t) ∧
    (∃ t, luacpustat_get S0 false (some 1) = Except.ok t) ∧
    (∀ (arg : Option Int) (e : String),
      luacpustat_get S0 false arg = Except.error e →
        ∃ k : Int, arg = some k ∧ 0 ≤ k ∧ (luacpustat_count S0 : Int) ≤ k ∧
          e = oobMsg S0 k) :=
  c9_only_failure_is_oob S0 false (-1) 1 (by decide) (by decide) (by decide)

/-- C10: with the conditional `FORCEIDLE` row absent, the registry-driven
`luacpustat_get` and the older hard-coded implementation agree on every
argument: they succeed together, fail together with the same out-of-range
message, and on success bind every field name to the same value. -/
theorem c10_registry_refines_hardcoded (S : KernelState) (arg : Option Int)
    (name : String) :
    ((∃ t, luacpustat_get_old S arg = Except.ok t) ↔
      (∃ t, luacpustat_get S false arg = Except.ok t)) ∧
    (∀ e : String, luacpustat_get_old S arg = Except.error e ↔
      luacpustat_get S false arg = Except.error e) ∧
    (∀ told tnew, luacpustat_get_old S arg = Except.ok told →
      luacpustat_get S false arg = Except.ok tnew →
      List.lookup name told = List.lookup name tnew) := by
  have hcase :
      (luacpustat_get_old S arg
          = Except.ok (oldTable (S.possible.foldl (oldAccum S) oldZero)) ∧
        luacpustat_get S false arg
          = Except.ok (buildTable false (aggStats S false))) ∨
      (∃ i : Int, 0 ≤ i ∧
        luacpustat_get_old S arg = Except.ok (oldTable (oldRead S i.toNat)) ∧
        luacpustat_get S false arg
          = Except.ok (buildTable false (copyStats S false i.toNat))) ∨
      (∃ i : Int,
        luacpustat_get_old S arg = Except.error (oobMsg S i) ∧
        luacpustat_get S false arg = Except.error (oobMsg S i)) := by
    cases arg with
    | none => exact Or.inl ⟨get_old_none_eq S, get_none_eq S false⟩
    | some k =>
        by_cases h0 : 0 ≤ k
        · by_cases hge : (S.nr_cpu_ids : Int) ≤ k
          · exact Or.inr (Or.inr ⟨k, get_old_oob S k h0 hge, get_oob S false k h0 hge⟩)
          · exact Or.inr (Or.inl ⟨k, h0, get_old_pos S k h0 (not_le.mp hge),
              get_pos S false k h0 (not_le.mp hge)⟩)
        · exact Or.inl ⟨get_old_neg S k (not_le.mp h0), get_neg S false k (not_le.mp h0)⟩
  rcases hcase with ⟨hO, hN⟩ | ⟨i, -, hO, hN⟩ | ⟨i, hO, hN⟩
  · refine ⟨⟨fun _ => ⟨_, hN⟩, fun _ => ⟨_, hO⟩⟩, ?_, ?_⟩
    · intro e
      constructor <;> intro he
      · rw [hO] at he
        exact Except.noConfusion he
      · rw [hN] at he
        exact Except.noConfusion he
    · intro told tnew h1 h2
      have e1 := Except.ok.inj (hO.symm.trans h1)
      have e2 := Except.ok.inj (hN.symm.trans h2)
      rw [← e1, ← e2]
      exact old_new_agg S name
  · refine ⟨⟨fun _ => ⟨_, hN⟩, fun _ => ⟨_, hO⟩⟩, ?_, ?_⟩
    · intro e
      constructor <;> intro he
      · rw [hO] at he
        exact Except.noConfusion he
      · rw [hN] at he
        exact Except.noConfusion he
    · intro told tnew h1 h2
      have e1 := Except.ok.inj (hO.symm.trans h1)
      have e2 := Except.ok.inj (hN.symm.trans h2)
      rw [← e1, ← e2]
      exact old_new_single S i.toNat name
  · refine ⟨?_, ?_, ?_⟩
    · constructor <;> rintro ⟨t, ht⟩
      · rw [hO] at ht
        exact Except.noConfusion ht
      · rw [hN] at ht
        exact Except.noConfusion ht
    · intro e
      rw [hO, hN]
    · intro told tnew h1 _
      rw [hO] at h1
      exact Except.noConfusion h1

end Cpustat
